import Mathlib

/-!
Verification of the CreatorLang VFX engine (src/vfx_engine.py).

Shallow embedding conventions:
* Python floats are modelled as exact rationals (ℚ).
* numpy uint8 frames are grids of integer channel values; cv2.addWeighted
  saturates each channel to [0, 255] after rounding, which we model with
  an explicit clamp.
* cv2.GaussianBlur is an external library routine whose kernel is not part
  of this repository; it is threaded through the definitions as an abstract
  function argument `blur : ℤ → Frame → Frame` (first argument: kernel size).
* Randomness (random.uniform / random.random / random.randint) is modelled
  by passing the drawn values in explicitly; random.randint lo hi is a
  fallible operation that raises ValueError when hi < lo, modelled in Except.
* Fallible Python arithmetic (ZeroDivisionError) is modelled in Except.
* The Particle field named "rot" models the source field holding the angular
  orientation in degrees (renamed here; it is unused by rendering).
-/

/-- Channel values of a pixel as stored in a 3-channel uint8 frame. -/
structure Pix where
  c0 : ℤ
  c1 : ℤ
  c2 : ℤ
deriving DecidableEq, Repr

/-- Frame buffer: a list of rows of pixels (numpy ndarray of shape (h, w, 3)). -/
abbrev Frame := List (List Pix)

/-- Python int() truncation toward zero on a rational value. -/
def pyInt (x : ℚ) : ℤ := if 0 ≤ x then ⌊x⌋ else -⌊-x⌋

/-- Saturating cast of cv2: round to nearest integer and clamp into [0, 255].
The exact tie-breaking of cvRound is irrelevant to every claim below; we round
half up. -/
def satRound (x : ℚ) : ℤ := max 0 (min 255 ⌊x + 1/2⌋)

/-- One output channel of cv2.addWeighted: saturate(a*x + b*y + g). -/
def awChan (a : ℚ) (x : ℤ) (b : ℚ) (y : ℤ) (g : ℚ) : ℤ :=
  satRound (a * (x : ℚ) + b * (y : ℚ) + g)

/-- cv2.addWeighted on one pixel. -/
def awPix (a b g : ℚ) (p q : Pix) : Pix :=
  ⟨awChan a p.c0 b q.c0 g, awChan a p.c1 b q.c1 g, awChan a p.c2 b q.c2 g⟩

/-- cv2.addWeighted(f, a, h, b, g): per-channel weighted sum with saturation. -/
def addWeighted (f : Frame) (a : ℚ) (h : Frame) (b : ℚ) (g : ℚ) : Frame :=
  List.zipWith (fun r1 r2 => List.zipWith (awPix a b g) r1 r2) f h

/-- A channel value lies in the valid display range of a uint8 frame. -/
def chanInRange (z : ℤ) : Prop := 0 ≤ z ∧ z ≤ 255

/-- Every channel of a pixel lies in the valid display range. -/
def pixInRange (p : Pix) : Prop := chanInRange p.c0 ∧ chanInRange p.c1 ∧ chanInRange p.c2

/-- Every channel of every pixel of a frame lies in the valid display range. -/
def frameInRange (f : Frame) : Prop := ∀ row ∈ f, ∀ p ∈ row, pixInRange p

/-- random.randint lo hi: raises ValueError when the range [lo, hi] is empty,
otherwise maps the supplied draw into the range. -/
def randint (lo hi draw : ℤ) : Except String ℤ :=
  if hi < lo then .error "ValueError"
  else .ok (lo + (draw - lo).emod (hi - lo + 1))

/-- np.roll of one row by s along the horizontal axis (wrap-around shift). -/
def npRollRow {α : Type} (s : ℤ) (row : List α) : List α :=
  row.rotate (((-s).emod (row.length : ℤ)).toNat)

theorem satRound_mem (x : ℚ) : chanInRange (satRound x) := by
  unfold satRound chanInRange
  constructor
  · exact le_max_left 0 _
  · rcases le_or_lt (min 255 ⌊x + 1/2⌋) 0 with h | h
    · calc max 0 (min 255 ⌊x + 1/2⌋) = 0 := max_eq_left h
        _ ≤ 255 := by norm_num
    · calc max 0 (min 255 ⌊x + 1/2⌋) = min 255 ⌊x + 1/2⌋ := max_eq_right h.le
        _ ≤ 255 := min_le_left _ _

theorem awPix_mem (a b g : ℚ) (p q : Pix) : pixInRange (awPix a b g p q) :=
  ⟨satRound_mem _, satRound_mem _, satRound_mem _⟩

theorem mem_zipWith_awPix (a b g : ℚ) (r1 r2 : List Pix) :
    ∀ p ∈ List.zipWith (awPix a b g) r1 r2, pixInRange p := by
  induction r1 generalizing r2 with
  | nil => simp
  | cons x xs ih =>
    cases r2 with
    | nil => simp
    | cons y ys =>
      intro p hp
      rcases List.mem_cons.mp hp with h | h
      · subst h; exact awPix_mem ..
      · exact ih ys p h

theorem addWeighted_inRange (f h : Frame) (a b g : ℚ) :
    frameInRange (addWeighted f a h b g) := by
  intro row hrow
  unfold addWeighted at hrow
  induction f generalizing h with
  | nil => simp at hrow
  | cons r rs ih =>
    cases h with
    | nil => simp at hrow
    | cons s ss =>
      rcases List.mem_cons.mp hrow with h | h
      · subst h; exact mem_zipWith_awPix a b g r s
      · exact ih ss h

/-! ## Particle data model (src/vfx_engine.py, Particle / ParticleSystem) -/

/-- RGBA color record; the source stores it as a 4-tuple of 0..255 ints. -/
structure RGBA where
  r : ℤ
  g : ℤ
  b : ℤ
  a : ℤ
deriving DecidableEq, Repr

/-- Particle record (src Particle dataclass). The source field holding the
angular orientation in degrees is called "rot" here. -/
structure Particle where
  position : ℚ × ℚ
  velocity : ℚ × ℚ
  acceleration : ℚ × ℚ
  lifetime : ℚ
  max_lifetime : ℚ
  color : RGBA
  size : ℚ
  rot : ℚ
  angular_velocity : ℚ
deriving DecidableEq, Repr

/-- Nested per-particle template dictionary (config key "particle"); absent
keys fall back to the defaults hard-coded in _create_particle. -/
structure ParticleTemplate where
  spread : Option ℚ := none
  velocity : Option (ℚ × ℚ) := none
  velocity_random : Option (ℚ × ℚ) := none
  acceleration : Option (ℚ × ℚ) := none
  lifetime : Option ℚ := none
  lifetime_random : Option ℚ := none
  color : Option RGBA := none
  size : Option ℚ := none
  size_random : Option ℚ := none
  angular_velocity : Option ℚ := none
deriving DecidableEq, Repr

/-- ParticleSystem constructor configuration dictionary. -/
structure PSConfig where
  position : Option (ℚ × ℚ) := none
  rate : Option ℚ := none
  particle : Option ParticleTemplate := none
deriving DecidableEq, Repr

/-- ParticleSystem state. -/
structure ParticleSystem where
  particles : List Particle
  emitter_pos : ℚ × ℚ
  emission_rate : ℚ
  particle_config : ParticleTemplate
  time_since_emit : ℚ
deriving DecidableEq, Repr

/-- ParticleSystem.__init__(config). -/
def ParticleSystem.init (config : PSConfig) : ParticleSystem :=
  { particles := []
    emitter_pos := config.position.getD (0, 0)
    emission_rate := config.rate.getD 50
    particle_config := config.particle.getD {}
    time_since_emit := 0 }

/-- One batch of the random.uniform draws consumed by _create_particle.
Each field carries the sampled perturbation value (the uniform draw itself);
range constraints such as dpos inside [-spread, spread] are hypotheses of the
theorems that need them. -/
structure Draws where
  dpos : ℚ × ℚ := (0, 0)
  dvel : ℚ × ℚ := (0, 0)
  dlife : ℚ := 0
  dsize : ℚ := 0
  drot : ℚ := 0
deriving DecidableEq, Repr

/-- ParticleSystem._create_particle, with the random draws passed explicitly.
Defaults mirror the source: velocity (0, -50), acceleration (0, 0),
lifetime 2.0, color opaque white, size 5, spread 0. -/
def ParticleSystem.create_particle (s : ParticleSystem) (d : Draws) : Particle :=
  let pc := s.particle_config
  let pos := (s.emitter_pos.1 + d.dpos.1, s.emitter_pos.2 + d.dpos.2)
  let vel_base := pc.velocity.getD (0, -50)
  let velocity := (vel_base.1 + d.dvel.1, vel_base.2 + d.dvel.2)
  let acceleration := pc.acceleration.getD (0, 0)
  let lifetime_base := pc.lifetime.getD 2
  let lifetime := lifetime_base + d.dlife
  let color := pc.color.getD ⟨255, 255, 255, 255⟩
  let size_base := pc.size.getD 5
  let size := size_base + d.dsize
  { position := pos
    velocity := velocity
    acceleration := acceleration
    lifetime := lifetime
    max_lifetime := lifetime
    color := color
    size := size
    rot := d.drot
    angular_velocity := pc.angular_velocity.getD 0 }

/-- Emission guard of ParticleSystem.update: the accumulated time (after
adding dt) has reached one emission interval. -/
def ParticleSystem.emitsNow (s : ParticleSystem) (dt : ℚ) : Bool :=
  1 / s.emission_rate ≤ s.time_since_emit + dt

/-- Per-particle integration step inside ParticleSystem.update: position by
velocity, velocity by acceleration, orientation by angular velocity, and
lifetime decremented by dt. -/
def stepParticle (dt : ℚ) (p : Particle) : Particle :=
  { p with
    position := (p.position.1 + p.velocity.1 * dt, p.position.2 + p.velocity.2 * dt)
    velocity := (p.velocity.1 + p.acceleration.1 * dt, p.velocity.2 + p.acceleration.2 * dt)
    rot := p.rot + p.angular_velocity * dt
    lifetime := p.lifetime - dt }

/-- ParticleSystem.update(dt). The source evaluates 1.0 / self.emission_rate
unconditionally, so a system with emission_rate 0 raises ZeroDivisionError.
Otherwise: accumulate time; if a full interval elapsed, emit one particle and
reset the accumulator to 0.0; integrate every particle; drop particles whose
lifetime is no longer positive. -/
def ParticleSystem.update (s : ParticleSystem) (dt : ℚ) (d : Draws) :
    Except String ParticleSystem :=
  if s.emission_rate = 0 then .error "ZeroDivisionError"
  else
    let t := s.time_since_emit + dt
    let emitted := if s.emitsNow dt then [s.create_particle d] else []
    let t1 := if s.emitsNow dt then 0 else t
    let parts := ((s.particles ++ emitted).map (stepParticle dt)).filter
      (fun p => 0 < p.lifetime)
    .ok { s with particles := parts, time_since_emit := t1 }

/-- A sequence of update(dt) calls, each with its batch of random draws. -/
def ParticleSystem.runUpdates (s : ParticleSystem) :
    List (ℚ × Draws) → Except String ParticleSystem
  | [] => .ok s
  | (dt, d) :: rest =>
    match s.update dt d with
    | .error e => .error e
    | .ok s1 => s1.runUpdates rest

/-- Total number of particles emitted by the rate-based path over a sequence
of update calls (one per call whose emission guard fires). -/
def ParticleSystem.runEmitted (s : ParticleSystem) : List (ℚ × Draws) → ℕ
  | [] => 0
  | (dt, d) :: rest =>
    match s.update dt d with
    | .error _ => 0
    | .ok s1 => (if s.emitsNow dt then 1 else 0) + s1.runEmitted rest

/-- ExplosionEffect.create_explosion_config: burst-only preset with rate 0
(source comment: "Burst, not continuous"). -/
def ExplosionEffect.create_explosion_config (position : ℚ × ℚ) : PSConfig :=
  { position := some position
    rate := some 0
    particle := some
      { velocity := some (0, 0)
        acceleration := some (0, 100)
        lifetime := some 2
        lifetime_random := some (1/2)
        color := some ⟨255, 255, 0, 255⟩
        size := some 8
        size_random := some 4 } }

/-- Successful-path characterization of ParticleSystem.update. -/
theorem ParticleSystem.update_ok (s : ParticleSystem) (dt : ℚ) (d : Draws)
    (hR : s.emission_rate ≠ 0) :
    s.update dt d = .ok
      { s with
        particles := ((s.particles ++
            if s.emitsNow dt then [s.create_particle d] else []).map
          (stepParticle dt)).filter (fun p => 0 < p.lifetime)
        time_since_emit := if s.emitsNow dt then 0 else s.time_since_emit + dt } := by
  unfold ParticleSystem.update
  rw [if_neg hR]

/-- Pure emission-scheduling automaton extracted from update: state is the
accumulated time since the last emission. -/
def emitCount (R : ℚ) : ℚ → List ℚ → ℕ
  | _, [] => 0
  | t, dt :: rest =>
    if 1 / R ≤ t + dt then 1 + emitCount R 0 rest else emitCount R (t + dt) rest

theorem runEmitted_eq_emitCount (s : ParticleSystem) (l : List (ℚ × Draws))
    (hR : s.emission_rate ≠ 0) :
    s.runEmitted l = emitCount s.emission_rate s.time_since_emit (l.map Prod.fst) := by
  induction l generalizing s with
  | nil => rfl
  | cons x rest ih =>
    obtain ⟨dt, d⟩ := x
    unfold ParticleSystem.runEmitted
    rw [s.update_ok dt d hR]
    simp only [List.map_cons]
    by_cases h : 1 / s.emission_rate ≤ s.time_since_emit + dt
    · have hb : s.emitsNow dt = true := by
        unfold ParticleSystem.emitsNow; exact decide_eq_true h
      rw [emitCount, if_pos h]
      simp only [hb, if_true]
      exact congrArg (1 + ·) (ih _ hR)
    · have hb : s.emitsNow dt = false := by
        unfold ParticleSystem.emitsNow; exact decide_eq_false h
      rw [emitCount, if_neg h]
      simp only [hb, Bool.false_eq_true, if_false, Nat.zero_add]
      exact ih _ hR

theorem emitCount_le (R : ℚ) (hR : 0 < R) (dts : List ℚ) :
    ∀ (t : ℚ), 0 ≤ t → (∀ x ∈ dts, 0 ≤ x) →
      (emitCount R t dts : ℚ) * (1 / R) ≤ t + dts.sum := by
  induction dts with
  | nil => intro t ht _; simpa [emitCount] using ht
  | cons dt rest ih =>
    intro t ht hmem
    have hdt : 0 ≤ dt := hmem dt (by simp)
    have hrest : ∀ x ∈ rest, 0 ≤ x := fun x hx => hmem x (List.mem_cons_of_mem _ hx)
    by_cases h : 1 / R ≤ t + dt
    · rw [emitCount, if_pos h]
      have h0 := ih 0 le_rfl hrest
      have : ((1 + emitCount R 0 rest : ℕ) : ℚ) * (1 / R)
          = 1 / R + (emitCount R 0 rest : ℚ) * (1 / R) := by
        push_cast; ring
      rw [this, List.sum_cons]
      calc 1 / R + (emitCount R 0 rest : ℚ) * (1 / R)
          ≤ (t + dt) + (0 + rest.sum) := add_le_add h h0
        _ = t + (dt + rest.sum) := by ring
    · rw [emitCount, if_neg h]
      have h0 := ih (t + dt) (by positivity) hrest
      rw [List.sum_cons]
      calc (emitCount R (t + dt) rest : ℚ) * (1 / R) ≤ (t + dt) + rest.sum := h0
        _ = t + (dt + rest.sum) := by ring

theorem emitCount_uniform (R : ℚ) (hR : 0 < R) (dts : List ℚ)
    (huni : ∀ x ∈ dts, x = 1 / R) : emitCount R 0 dts = dts.length := by
  induction dts with
  | nil => rfl
  | cons dt rest ih =>
    have h1 : dt = 1 / R := huni dt (by simp)
    have hcond : 1 / R ≤ 0 + dt := by rw [h1, zero_add]
    rw [emitCount, if_pos hcond, ih fun x hx => huni x (List.mem_cons_of_mem _ hx)]
    simp [List.length_cons, Nat.add_comm]

/-- C1: with emission rate 0, update(dt) is claimed to skip the rate-based
emission path and complete normally; the source instead evaluates
1.0 / self.emission_rate unguarded and raises ZeroDivisionError, as this
evaluation of the code at the rate-0 explosion preset shows. -/
theorem C1_rate_zero_update_raises :
    (ParticleSystem.init (ExplosionEffect.create_explosion_config (100, 100))).update
      (1/10) {} = .error "ZeroDivisionError" := by
  rfl

/-- C2 (amended): with emission rate R > 0 and update(dt) calls with positive
dt each at most 1/R summing to T, the rate-based path emits at most
floor(T*R) particles (the accumulator reset to 0.0 discards the residual
beyond one interval, so the exact count depends on how T is split); the split
in which every dt equals exactly 1/R attains exactly floor(T*R). -/
theorem C2_rate_emission_bound (s : ParticleSystem) (l : List (ℚ × Draws))
    (hR : 0 < s.emission_rate) (ht : s.time_since_emit = 0)
    (hdt : ∀ x ∈ l, 0 < x.1 ∧ x.1 ≤ 1 / s.emission_rate) :
    ((s.runEmitted l : ℤ) ≤ ⌊(l.map Prod.fst).sum * s.emission_rate⌋) ∧
    ((∀ x ∈ l, x.1 = 1 / s.emission_rate) →
      (s.runEmitted l : ℤ) = ⌊(l.map Prod.fst).sum * s.emission_rate⌋) := by
  have hR0 : s.emission_rate ≠ 0 := ne_of_gt hR
  rw [runEmitted_eq_emitCount s l hR0, ht]
  constructor
  · rw [Int.le_floor]
    have h := emitCount_le s.emission_rate hR (l.map Prod.fst) 0 le_rfl
      (fun x hx => by
        rcases List.mem_map.mp hx with ⟨y, hy, hxy⟩
        exact hxy ▸ (hdt y hy).1.le)
    have h2 := mul_le_mul_of_nonneg_right h hR.le
    rw [zero_add] at h2
    calc ((emitCount s.emission_rate 0 (l.map Prod.fst) : ℤ) : ℚ)
        = (emitCount s.emission_rate 0 (l.map Prod.fst) : ℚ) * (1 / s.emission_rate)
            * s.emission_rate := by field_simp
      _ ≤ (l.map Prod.fst).sum * s.emission_rate := h2
  · intro huni
    have huni2 : ∀ x ∈ l.map Prod.fst, x = 1 / s.emission_rate := fun x hx => by
      rcases List.mem_map.mp hx with ⟨y, hy, hxy⟩
      exact hxy ▸ huni y hy
    rw [emitCount_uniform s.emission_rate hR _ huni2]
    have hsum : (l.map Prod.fst).sum = ((l.map Prod.fst).length : ℚ) * (1 / s.emission_rate) := by
      rw [List.sum_eq_card_nsmul _ _ huni2]
      simp [nsmul_eq_mul]
    rw [hsum]
    have : ((l.map Prod.fst).length : ℚ) * (1 / s.emission_rate) * s.emission_rate
        = ((l.map Prod.fst).length : ℚ) := by field_simp
    rw [this, Int.floor_natCast]

/-- Witness for C2_rate_emission_bound: a rate-1 system driven by two unit
steps emits exactly two particles, floor(2 * 1). -/
theorem C2_rate_emission_bound_witness :
    (0 < (ParticleSystem.init { rate := some 1 }).emission_rate ∧
     (ParticleSystem.init { rate := some 1 }).time_since_emit = 0 ∧
     (∀ x ∈ [((1 : ℚ), ({} : Draws)), (1, {})], 0 < x.1 ∧
        x.1 ≤ 1 / (ParticleSystem.init { rate := some 1 }).emission_rate)) ∧
    (((ParticleSystem.init { rate := some 1 }).runEmitted
        [((1 : ℚ), ({} : Draws)), (1, {})] : ℤ) ≤
      ⌊([((1 : ℚ), ({} : Draws)), (1, {})].map Prod.fst).sum *
        (ParticleSystem.init { rate := some 1 }).emission_rate⌋) := by
  have h1 : 0 < (ParticleSystem.init { rate := some 1 }).emission_rate := by
    norm_num [ParticleSystem.init]
  have h2 : (ParticleSystem.init { rate := some 1 }).time_since_emit = 0 := rfl
  have h3 : ∀ x ∈ [((1 : ℚ), ({} : Draws)), (1, {})], 0 < x.1 ∧
      x.1 ≤ 1 / (ParticleSystem.init { rate := some 1 }).emission_rate := by
    norm_num [ParticleSystem.init]
  exact ⟨⟨h1, h2, h3⟩, (C2_rate_emission_bound _ _ h1 h2 h3).1⟩

/-- Counterexample for C2 as stated: with R = 1, five updates of dt = 3/5
(each at most 1/R, total T = 3) emit only 2 particles, not floor(T*R) = 3,
while the split into three updates of dt = 1 (same total) emits 3 — the
count is neither exactly floor(T*R) nor independent of the split. -/
theorem C2_counterexample :
    (∀ x ∈ [((3 : ℚ)/5, ({} : Draws)), (3/5, {}), (3/5, {}), (3/5, {}), (3/5, {})],
        0 < x.1 ∧ x.1 ≤ 1 / (ParticleSystem.init { rate := some 1 }).emission_rate) ∧
    ([((3 : ℚ)/5, ({} : Draws)), (3/5, {}), (3/5, {}), (3/5, {}), (3/5, {})].map
        Prod.fst).sum = 3 ∧
    (∀ x ∈ [((1 : ℚ), ({} : Draws)), (1, {}), (1, {})],
        0 < x.1 ∧ x.1 ≤ 1 / (ParticleSystem.init { rate := some 1 }).emission_rate) ∧
    ([((1 : ℚ), ({} : Draws)), (1, {}), (1, {})].map Prod.fst).sum = 3 ∧
    ⌊(3 : ℚ) * (ParticleSystem.init { rate := some 1 }).emission_rate⌋ = 3 ∧
    (ParticleSystem.init { rate := some 1 }).runEmitted
      [((3 : ℚ)/5, ({} : Draws)), (3/5, {}), (3/5, {}), (3/5, {}), (3/5, {})] = 2 ∧
    (ParticleSystem.init { rate := some 1 }).runEmitted
      [((1 : ℚ), ({} : Draws)), (1, {}), (1, {})] = 3 := by
  have hR0 : (ParticleSystem.init { rate := some 1 }).emission_rate ≠ 0 := by
    norm_num [ParticleSystem.init]
  refine ⟨?_, ?_, ?_, ?_, ?_, ?_, ?_⟩
  · norm_num [ParticleSystem.init]
  · norm_num
  · norm_num [ParticleSystem.init]
  · norm_num
  · norm_num [ParticleSystem.init]
  · rw [runEmitted_eq_emitCount _ _ hR0]
    norm_num [emitCount, ParticleSystem.init]
  · rw [runEmitted_eq_emitCount _ _ hR0]
    norm_num [emitCount, ParticleSystem.init]

/-! ## ParticleSystem.render (src lines 131-141) -/

/-- One cv2.circle invocation recorded by ParticleSystem.render: center
position, radius, and the 3-tuple color argument. -/
structure DrawCmd where
  pos : ℤ × ℤ
  size : ℤ
  color : ℤ × ℤ × ℤ
deriving DecidableEq, Repr

/-- Drawing decision of ParticleSystem.render for one particle on an h×w
frame: compute alpha from the lifetime ratio, build color_with_alpha, skip
particles whose integer position is outside the frame, and pass
color_with_alpha[:3] to cv2.circle. -/
def drawOf (h w : ℕ) (p : Particle) : Option DrawCmd :=
  let alpha := p.lifetime / p.max_lifetime
  let color_with_alpha : ℤ × ℤ × ℤ × ℤ :=
    (p.color.r, p.color.g, p.color.b, pyInt ((p.color.a : ℚ) * alpha))
  let pos := (pyInt p.position.1, pyInt p.position.2)
  if 0 ≤ pos.1 ∧ pos.1 < (w : ℤ) ∧ 0 ≤ pos.2 ∧ pos.2 < (h : ℤ) then
    some { pos := pos, size := pyInt p.size
           color := (color_with_alpha.1, color_with_alpha.2.1, color_with_alpha.2.2.1) }
  else none

/-- Sequence of cv2.circle calls issued by ParticleSystem.render on an h×w
frame, in particle insertion order. -/
def ParticleSystem.renderCmds (s : ParticleSystem) (h w : ℕ) : List DrawCmd :=
  s.particles.filterMap (drawOf h w)

/-- cv2.circle(frame, pos, size, color, -1): fill every pixel within the
radius with the color (exact cv2 rasterization of the disc boundary is
irrelevant to every claim below). -/
def drawCircle (f : Frame) (c : DrawCmd) : Frame :=
  f.mapIdx (fun i row => row.mapIdx (fun j px =>
    if ((j : ℤ) - c.pos.1) ^ 2 + ((i : ℤ) - c.pos.2) ^ 2 ≤ c.size ^ 2 then
      ⟨c.color.1, c.color.2.1, c.color.2.2⟩
    else px))

/-- ParticleSystem.render(frame): draw every live particle onto the frame. -/
def ParticleSystem.renderFrame (s : ParticleSystem) (f : Frame) : Frame :=
  (s.renderCmds f.length (f.headD []).length).foldl drawCircle f

/-! ## C3 and C4 -/

/-- Single successful update call: every surviving particle is alive and
respects the creation-time lifetime bound. -/
theorem ParticleSystem.update_invariant (s : ParticleSystem) (dt : ℚ) (d : Draws)
    (s1 : ParticleSystem) (hdt : 0 < dt)
    (hinv : ∀ p ∈ s.particles, p.lifetime ≤ p.max_lifetime)
    (hupd : s.update dt d = .ok s1) :
    ∀ p ∈ s1.particles, 0 < p.lifetime ∧ p.lifetime ≤ p.max_lifetime := by
  by_cases hR : s.emission_rate = 0
  · rw [ParticleSystem.update, if_pos hR] at hupd
    cases hupd
  · rw [s.update_ok dt d hR] at hupd
    simp only [Except.ok.injEq] at hupd
    subst hupd
    intro p hp
    rw [List.mem_filter] at hp
    obtain ⟨hp1, hp2⟩ := hp
    refine ⟨of_decide_eq_true hp2, ?_⟩
    rcases List.mem_map.mp hp1 with ⟨q, hq, rfl⟩
    have hqle : q.lifetime ≤ q.max_lifetime := by
      rcases List.mem_append.mp hq with hmem | hmem
      · exact hinv q hmem
      · split at hmem
        · rw [List.mem_singleton] at hmem
          subst hmem
          exact le_of_eq rfl
        · cases hmem
    show q.lifetime - dt ≤ q.max_lifetime
    linarith

/-- Run-level invariant: after a nonempty successful sequence of updates with
positive steps, every live particle is alive and respects the creation-time
lifetime bound. -/
theorem ParticleSystem.runUpdates_invariant (l : List (ℚ × Draws)) :
    ∀ (s s1 : ParticleSystem), (∀ x ∈ l, 0 < x.1) →
      (∀ p ∈ s.particles, p.lifetime ≤ p.max_lifetime) →
      s.runUpdates l = .ok s1 →
      (∀ p ∈ s1.particles, p.lifetime ≤ p.max_lifetime) ∧
      (l ≠ [] → ∀ p ∈ s1.particles, 0 < p.lifetime) := by
  induction l with
  | nil =>
    intro s s1 _ hinv hrun
    rw [ParticleSystem.runUpdates] at hrun
    simp only [Except.ok.injEq] at hrun
    subst hrun
    exact ⟨hinv, fun hab => absurd rfl hab⟩
  | cons x rest ih =>
    intro s s1 hpos hinv hrun
    obtain ⟨dt, d⟩ := x
    unfold ParticleSystem.runUpdates at hrun
    cases hup : s.update dt d with
    | error e => rw [hup] at hrun; cases hrun
    | ok smid =>
      rw [hup] at hrun
      have hrun2 : smid.runUpdates rest = .ok s1 := hrun
      have hmid := s.update_invariant dt d smid (hpos (dt, d) (by simp)) hinv hup
      have hmidinv : ∀ p ∈ smid.particles, p.lifetime ≤ p.max_lifetime :=
        fun p hp => (hmid p hp).2
      have hrest : ∀ y ∈ rest, 0 < y.1 :=
        fun y hy => hpos y (List.mem_cons_of_mem _ hy)
      refine ⟨(ih smid s1 hrest hmidinv hrun2).1, fun _ => ?_⟩
      cases rest with
      | nil =>
        rw [ParticleSystem.runUpdates] at hrun2
        simp only [Except.ok.injEq] at hrun2
        subst hrun2
        exact fun p hp => (hmid p hp).1
      | cons y ys =>
        exact (ih smid s1 hrest hmidinv hrun2).2 (by simp)

/-- C3: along any nonempty successful sequence of update(dt) calls with
dt > 0, each integration step strictly decreases a particle's remaining
lifetime and keeps its original lifetime unchanged; afterwards every particle
in the live set has positive remaining lifetime bounded by its original
lifetime, and the next render draws only particles of that live set, hence
none with remaining lifetime ≤ 0. -/
theorem C3_lifetime_monotone_and_purged (s s1 : ParticleSystem)
    (l : List (ℚ × Draws)) (hl : l ≠ []) (hpos : ∀ x ∈ l, 0 < x.1)
    (hinv : ∀ p ∈ s.particles, p.lifetime ≤ p.max_lifetime)
    (hrun : s.runUpdates l = .ok s1) :
    (∀ dt q, 0 < dt → (stepParticle dt q).lifetime < q.lifetime ∧
      (stepParticle dt q).max_lifetime = q.max_lifetime) ∧
    (∀ p ∈ s1.particles, 0 < p.lifetime ∧ p.lifetime ≤ p.max_lifetime) ∧
    (∀ h w cmd, cmd ∈ s1.renderCmds h w →
      ∃ p ∈ s1.particles, drawOf h w p = some cmd ∧ 0 < p.lifetime) := by
  obtain ⟨hb, hpos1⟩ := ParticleSystem.runUpdates_invariant l s s1 hpos hinv hrun
  have halive := hpos1 hl
  refine ⟨?_, fun p hp => ⟨halive p hp, hb p hp⟩, ?_⟩
  · intro dt q hdt
    refine ⟨?_, rfl⟩
    show q.lifetime - dt < q.lifetime
    linarith
  · intro h w cmd hcmd
    rcases List.mem_filterMap.mp hcmd with ⟨p, hp, hpd⟩
    exact ⟨p, hp, hpd, halive p hp⟩

/-- Witness for C3: one particle with lifetime 2, one unit update. -/
theorem C3_lifetime_monotone_and_purged_witness :
    (([((1 : ℚ), ({} : Draws))] : List (ℚ × Draws)) ≠ [] ∧
      (∀ x ∈ [((1 : ℚ), ({} : Draws))], 0 < x.1) ∧
      (∀ p ∈ (ParticleSystem.mk
          [⟨(0, 0), (0, 0), (0, 0), 2, 2, ⟨255, 255, 255, 255⟩, 5, 0, 0⟩]
          (0, 0) 1 {} 0).particles, p.lifetime ≤ p.max_lifetime) ∧
      (ParticleSystem.mk
          [⟨(0, 0), (0, 0), (0, 0), 2, 2, ⟨255, 255, 255, 255⟩, 5, 0, 0⟩]
          (0, 0) 1 {} 0).runUpdates [((1 : ℚ), ({} : Draws))] =
        .ok (ParticleSystem.mk
          [⟨(0, 0), (0, 0), (0, 0), 1, 2, ⟨255, 255, 255, 255⟩, 5, 0, 0⟩,
           ⟨(0, -50), (0, -50), (0, 0), 1, 2, ⟨255, 255, 255, 255⟩, 5, 0, 0⟩]
          (0, 0) 1 {} 0)) ∧
    (∀ p ∈ (ParticleSystem.mk
        [⟨(0, 0), (0, 0), (0, 0), 1, 2, ⟨255, 255, 255, 255⟩, 5, 0, 0⟩,
         ⟨(0, -50), (0, -50), (0, 0), 1, 2, ⟨255, 255, 255, 255⟩, 5, 0, 0⟩]
        (0, 0) 1 {} 0).particles, 0 < p.lifetime ∧ p.lifetime ≤ p.max_lifetime) := by
  have hl : (([((1 : ℚ), ({} : Draws))] : List (ℚ × Draws)) ≠ []) := by simp
  have hpos : ∀ x ∈ [((1 : ℚ), ({} : Draws))], 0 < x.1 := by norm_num
  have hinv : ∀ p ∈ (ParticleSystem.mk
      [⟨(0, 0), (0, 0), (0, 0), 2, 2, ⟨255, 255, 255, 255⟩, 5, 0, 0⟩]
      (0, 0) 1 {} 0).particles, p.lifetime ≤ p.max_lifetime := by norm_num
  have hrun : (ParticleSystem.mk
      [⟨(0, 0), (0, 0), (0, 0), 2, 2, ⟨255, 255, 255, 255⟩, 5, 0, 0⟩]
      (0, 0) 1 {} 0).runUpdates [((1 : ℚ), ({} : Draws))] =
      .ok (ParticleSystem.mk
        [⟨(0, 0), (0, 0), (0, 0), 1, 2, ⟨255, 255, 255, 255⟩, 5, 0, 0⟩,
         ⟨(0, -50), (0, -50), (0, 0), 1, 2, ⟨255, 255, 255, 255⟩, 5, 0, 0⟩]
        (0, 0) 1 {} 0) := by
    norm_num [ParticleSystem.runUpdates, ParticleSystem.update,
      ParticleSystem.emitsNow, ParticleSystem.create_particle, stepParticle]
  exact ⟨⟨hl, hpos, hinv, hrun⟩,
    (C3_lifetime_monotone_and_purged _ _ _ hl hpos hinv hrun).2.1⟩

/-- C4 (counterexample): two particles identical except for their fade ratios
(1/2 versus 1) produce identical draw commands — the rendered output does not
vary with the fade ratio, because render passes color_with_alpha[:3] (the
plain RGB channels) to cv2.circle. -/
theorem C4_counterexample :
    drawOf 10 10 ⟨(1, 1), (0, 0), (0, 0), 1, 2, ⟨10, 20, 30, 200⟩, 3, 0, 0⟩ =
      drawOf 10 10 ⟨(1, 1), (0, 0), (0, 0), 2, 2, ⟨10, 20, 30, 200⟩, 3, 0, 0⟩ ∧
    ((1 : ℚ) / 2) ≠ ((2 : ℚ) / 2) := by
  constructor
  · norm_num [drawOf, pyInt]
  · norm_num

/-- C4 (amended): render computes a faded alpha value int(color[3] *
lifetime/max_lifetime) but then slices it away, passing only the first three
(RGB) channels to cv2.circle: every draw command's color equals the
particle's unscaled RGB channels, independent of the fade ratio. -/
theorem C4_drawn_color_is_unscaled_rgb (h w : ℕ) (p : Particle) (cmd : DrawCmd)
    (hcmd : drawOf h w p = some cmd) :
    cmd.color = (p.color.r, p.color.g, p.color.b) := by
  simp only [drawOf] at hcmd
  split at hcmd
  · simp only [Option.some.injEq] at hcmd
    subst hcmd
    rfl
  · cases hcmd

/-- Witness for C4_drawn_color_is_unscaled_rgb at a concrete half-faded
particle. -/
theorem C4_drawn_color_is_unscaled_rgb_witness :
    drawOf 10 10 ⟨(1, 1), (0, 0), (0, 0), 1, 2, ⟨10, 20, 30, 200⟩, 3, 0, 0⟩ =
      some ⟨(1, 1), 3, (10, 20, 30)⟩ ∧
    (⟨(1, 1), 3, (10, 20, 30)⟩ : DrawCmd).color = (10, 20, 30) := by
  have h : drawOf 10 10 ⟨(1, 1), (0, 0), (0, 0), 1, 2, ⟨10, 20, 30, 200⟩, 3, 0, 0⟩ =
      some ⟨(1, 1), 3, (10, 20, 30)⟩ := by
    norm_num [drawOf, pyInt]
  exact ⟨h, C4_drawn_color_is_unscaled_rgb 10 10 _ _ h⟩

/-! ## EffectProcessor (src lines 144-208) -/

/-- Kernel size used by apply_glow: radius forced odd by adding 1 when even
(Python % on a positive modulus agrees with Int.emod). -/
def glowKernel (radius : ℤ) : ℤ := if radius % 2 = 0 then radius + 1 else radius

/-- EffectProcessor.apply_glow: gaussian-blur the frame with the odd-forced
kernel, then addWeighted(frame, 1.0, blurred, intensity, 0). -/
def apply_glow (blur : ℤ → Frame → Frame) (frame : Frame) (intensity : ℚ)
    (radius : ℤ) : Frame :=
  addWeighted frame 1 (blur (glowKernel radius) frame) intensity 0

/-- EffectProcessor.apply_motion_blur: addWeighted(frame, 1-strength,
prev_frame, strength, 0). -/
def apply_motion_blur (frame prev : Frame) (strength : ℚ) : Frame :=
  addWeighted frame (1 - strength) prev strength 0

/-- Pixel lookup with the zero border used by cv2.warpAffine. -/
def getPx (f : Frame) (i j : ℤ) : Pix :=
  if 0 ≤ i ∧ 0 ≤ j then (f.getD i.toNat []).getD j.toNat ⟨0, 0, 0⟩ else ⟨0, 0, 0⟩

/-- cv2.warpAffine with the pure translation matrix [[1,0,dx],[0,1,dy]]:
dst(y, x) = src(y - dy, x - dx), zero fill at the revealed border. -/
def translateFrame (f : Frame) (dx dy : ℤ) : Frame :=
  f.mapIdx (fun i row => row.mapIdx (fun j _ => getPx f ((i : ℤ) - dy) ((j : ℤ) - dx)))

/-- EffectProcessor.apply_shake: random integer offsets in
[-intensity, intensity] on both axes, then translate. -/
def apply_shake (frame : Frame) (intensity : ℤ) (xd yd : ℤ) : Except String Frame :=
  match randint (-intensity) intensity xd with
  | .error e => .error e
  | .ok dx =>
    match randint (-intensity) intensity yd with
    | .error e => .error e
    | .ok dy => .ok (translateFrame frame dx dy)

/-- Draws consumed by one apply_glitch call: the random.random() sample and
the three randint samples of the random-band branch. -/
structure GlitchRand where
  r : ℚ := 0
  yDraw : ℤ := 0
  hDraw : ℤ := 0
  sDraw : ℤ := 0
deriving DecidableEq, Repr

/-- RGB channel shift of apply_glitch on one row: channel 0 rolled right by
shift, channel 2 rolled left by shift, channel 1 untouched. -/
def glitchChannelsRow (shift : ℤ) (row : List Pix) : List Pix :=
  List.zipWith (fun pz z2 => ⟨pz.2, pz.1.c1, z2⟩)
    (row.zip (npRollRow shift (row.map Pix.c0)))
    (npRollRow (-shift) (row.map Pix.c2))

/-- RGB channel shift of apply_glitch (np.roll along axis 1 acts on each row
independently). -/
def glitchChannels (shift : ℤ) (f : Frame) : Frame := f.map (glitchChannelsRow shift)

/-- Horizontal roll of the band of rows [y, y+height) (numpy slicing clamps
the band at the frame boundary, which mapIdx reproduces). -/
def bandRoll (y height s : ℤ) (f : Frame) : Frame :=
  f.mapIdx (fun i row =>
    if y ≤ (i : ℤ) ∧ (i : ℤ) < y + height then npRollRow s row else row)

/-- EffectProcessor.apply_glitch: shift the outer color channels by
±int(intensity*10); when random.random() < intensity, additionally roll one
random horizontal band. random.randint(0, h-50) raises ValueError when
h < 50. -/
def apply_glitch (frame : Frame) (intensity : ℚ) (g : GlitchRand) :
    Except String Frame :=
  let h := (frame.length : ℤ)
  let shift := pyInt (intensity * 10)
  let result := glitchChannels shift frame
  if g.r < intensity then
    match randint 0 (h - 50) g.yDraw with
    | .error e => .error e
    | .ok y =>
      match randint 5 50 g.hDraw with
      | .error e => .error e
      | .ok height =>
        match randint (-20) 20 g.sDraw with
        | .error e => .error e
        | .ok shift_amount => .ok (bandRoll y height shift_amount result)
  else .ok result

/-- Dead code of apply_radial_blur: the mask (dist / dist.max() > 0.3) is
computed and never used. Squared distances give an exact sqrt-free
formulation of the comparison. apply_radial_blur evaluates this only on
frames with at least one row and one column (np.max of a zero-size distance
array raises before any mask value could be formed), and the
all-zero-distance nan corner of numpy is irrelevant: the value is
discarded. -/
def radialMask (h w : ℕ) (center : ℤ × ℤ) : List (List Bool) :=
  let distSq := fun (y x : ℕ) =>
    ((x : ℤ) - center.1) ^ 2 + ((y : ℤ) - center.2) ^ 2
  let maxSq := ((List.range h).map (fun y =>
    ((List.range w).map (fun x => distSq y x)).foldl max 0)).foldl max 0
  (List.range h).map (fun y => (List.range w).map (fun x =>
    decide (100 * distSq y x > 9 * maxSq)))

/-- EffectProcessor.apply_radial_blur: the normalization
dist = dist / np.max(dist) runs before the loop, and np.max of the zero-size
distance array of a frame with zero rows or zero columns raises ValueError,
for every center and strength; otherwise int(strength*10) iterations, each
re-blurring the original frame and blending it into the accumulator with
weight alpha*0.1; the radial mask is computed but never applied. -/
def apply_radial_blur (blur : ℤ → Frame → Frame) (frame : Frame)
    (center : ℤ × ℤ) (strength : ℚ) : Except String Frame :=
  let h := frame.length
  let w := (frame.headD []).length
  if h = 0 ∨ w = 0 then .error "ValueError"
  else
    .ok ((List.range (pyInt (strength * 10)).toNat).foldl
      (fun result i =>
        let alpha := ((i : ℚ) + 1) / (strength * 10)
        let blurred := blur 15 frame
        let _mask := radialMask h w center
        addWeighted result (1 - alpha * (1/10)) blurred (alpha * (1/10)) 0)
      frame)

/-- C7: apply_glow blurs with the kernel size forced to the nearest odd value
at or above radius (radius+1 when even, radius when odd), blends as
addWeighted(frame, 1.0, blurred, intensity, 0), and every output channel is
clamped into the valid display range, for every blur routine, frame,
intensity (including 5.0) and radius. -/
theorem C7_glow_kernel_blend_clamped (blur : ℤ → Frame → Frame) (frame : Frame)
    (intensity : ℚ) (radius : ℤ) :
    (Odd (glowKernel radius) ∧ radius ≤ glowKernel radius ∧
      glowKernel radius ≤ radius + 1 ∧
      (radius % 2 = 0 → glowKernel radius = radius + 1) ∧
      (radius % 2 ≠ 0 → glowKernel radius = radius)) ∧
    apply_glow blur frame intensity radius =
      addWeighted frame 1 (blur (glowKernel radius) frame) intensity 0 ∧
    frameInRange (apply_glow blur frame intensity radius) := by
  refine ⟨⟨?_, ?_, ?_, ?_, ?_⟩, rfl,
    addWeighted_inRange frame (blur (glowKernel radius) frame) 1 intensity 0⟩
  · unfold glowKernel
    by_cases h : radius % 2 = 0
    · rw [if_pos h]
      exact (Int.even_iff.mpr h).add_one
    · rw [if_neg h]
      exact Int.odd_iff.mpr ((Int.emod_two_eq radius).resolve_left h)
  · unfold glowKernel
    by_cases h : radius % 2 = 0
    · rw [if_pos h]; linarith
    · rw [if_neg h]
  · unfold glowKernel
    by_cases h : radius % 2 = 0
    · rw [if_pos h]
    · rw [if_neg h]; linarith
  · intro h; unfold glowKernel; rw [if_pos h]
  · intro h; unfold glowKernel; rw [if_neg h]

/-- C8: apply_radial_blur(frame, center, strength) is independent of the
center argument for every frame, strength and pair of centers — the radial
mask is dead code, and on a frame with zero rows or zero columns both sides
raise the same ValueError from the pre-loop dist normalization; on a frame
with at least one row and one column it returns normally, a spatially
uniform blend of the frame with its fixed-kernel blur iterated
floor(strength*10) times. -/
theorem C8_radial_blur_center_independent (blur : ℤ → Frame → Frame)
    (frame : Frame) (c1 c2 : ℤ × ℤ) (strength : ℚ) :
    (apply_radial_blur blur frame c1 strength =
      apply_radial_blur blur frame c2 strength) ∧
    (frame.length = 0 ∨ (frame.headD []).length = 0 →
      apply_radial_blur blur frame c1 strength = .error "ValueError") ∧
    (frame.length ≠ 0 → (frame.headD []).length ≠ 0 →
      apply_radial_blur blur frame c1 strength =
        .ok ((List.range (⌊strength * 10⌋).toNat).foldl
          (fun result i =>
            addWeighted result (1 - ((i : ℚ) + 1) / (strength * 10) * (1/10))
              (blur 15 frame) (((i : ℚ) + 1) / (strength * 10) * (1/10)) 0)
          frame)) := by
  have hcnt : (pyInt (strength * 10)).toNat = (⌊strength * 10⌋).toNat := by
    unfold pyInt
    by_cases h : 0 ≤ strength * 10
    · rw [if_pos h]
    · rw [if_neg h]
      have hx : strength * 10 < 0 := lt_of_not_ge h
      have h1 : (⌊strength * 10⌋ : ℤ) ≤ 0 := by
        calc ⌊strength * 10⌋ ≤ ⌊(0 : ℚ)⌋ := Int.floor_le_floor hx.le
          _ = 0 := Int.floor_zero
      have h2 : (0 : ℤ) ≤ ⌊-(strength * 10)⌋ :=
        Int.floor_nonneg.mpr (by linarith)
      rw [Int.toNat_eq_zero.mpr (by linarith), Int.toNat_eq_zero.mpr h1]
  refine ⟨rfl, ?_, ?_⟩
  · intro h
    simp only [apply_radial_blur]
    rw [if_pos h]
  · intro h1 h2
    simp only [apply_radial_blur]
    rw [if_neg (not_or.mpr ⟨h1, h2⟩), hcnt]

/-- Witness for C8_radial_blur_center_independent: a 1×1 frame with
strength 0 returns unchanged, and the zero-row frame raises ValueError. -/
theorem C8_radial_blur_center_independent_witness :
    (([[⟨0, 0, 0⟩]] : Frame).length ≠ 0 ∧
      (([[⟨0, 0, 0⟩]] : Frame).headD []).length ≠ 0 ∧
      apply_radial_blur (fun _ f => f) [[⟨0, 0, 0⟩]] (0, 0) 0 =
        .ok [[⟨0, 0, 0⟩]]) ∧
    (([] : Frame).length = 0 ∨ (([] : Frame).headD []).length = 0) ∧
    apply_radial_blur (fun _ f => f) [] (0, 0) 0 = .error "ValueError" := by
  have h1 : ([[⟨0, 0, 0⟩]] : Frame).length ≠ 0 := by norm_num
  have h2 : (([[⟨0, 0, 0⟩]] : Frame).headD []).length ≠ 0 := by norm_num
  have h3 : ([] : Frame).length = 0 ∨ (([] : Frame).headD []).length = 0 := by
    norm_num
  have hok := (C8_radial_blur_center_independent (fun _ f => f)
    [[⟨0, 0, 0⟩]] (0, 0) (0, 0) 0).2.2 h1 h2
  have herr := (C8_radial_blur_center_independent (fun _ f => f)
    [] (0, 0) (0, 0) 0).2.1 h3
  refine ⟨⟨h1, h2, ?_⟩, h3, herr⟩
  rw [hok]
  norm_num

/-- C10: on frames with fewer than 50 rows and positive intensity there is a
random outcome (the random-band branch, entered exactly when the
random.random() draw is below intensity) on which apply_glitch raises
ValueError, because randint(0, h-50) has an empty range; on frames with at
least 50 rows apply_glitch always returns normally. -/
theorem C10_glitch_short_frame_partiality (frame : Frame) (intensity : ℚ) :
    (frame.length < 50 → 0 < intensity →
      ∃ g : GlitchRand, (0 ≤ g.r ∧ g.r < 1) ∧
        apply_glitch frame intensity g = .error "ValueError") ∧
    (50 ≤ frame.length → ∀ g : GlitchRand,
      ∃ f1, apply_glitch frame intensity g = .ok f1) := by
  constructor
  · intro hlt hpos
    refine ⟨{ r := 0 }, ⟨le_refl 0, one_pos⟩, ?_⟩
    unfold apply_glitch
    rw [if_pos hpos]
    have hneg : (frame.length : ℤ) - 50 < 0 := by
      have : (frame.length : ℤ) < 50 := by exact_mod_cast hlt
      linarith
    rw [randint, if_pos hneg]
  · intro hge g
    unfold apply_glitch
    by_cases hc : g.r < intensity
    · rw [if_pos hc]
      have hok : ¬ ((frame.length : ℤ) - 50 < 0) := by
        have : (50 : ℤ) ≤ (frame.length : ℤ) := by exact_mod_cast hge
        linarith
      rw [randint, if_neg hok, randint, if_neg (by norm_num), randint,
        if_neg (by norm_num)]
      exact ⟨_, rfl⟩
    · rw [if_neg hc]
      exact ⟨_, rfl⟩

/-- Witness for C10: the empty frame (height 0) errors under the band branch,
and a 50-row frame always succeeds. -/
theorem C10_glitch_short_frame_partiality_witness :
    (([] : Frame).length < 50 ∧ (0 : ℚ) < 1 ∧
      ∃ g : GlitchRand, (0 ≤ g.r ∧ g.r < 1) ∧
        apply_glitch [] 1 g = .error "ValueError") ∧
    (50 ≤ (List.replicate 50 ([] : List Pix)).length ∧
      ∃ f1, apply_glitch (List.replicate 50 ([] : List Pix)) 1 {} = .ok f1) := by
  have h1 : ([] : Frame).length < 50 := by norm_num
  have h2 : (0 : ℚ) < 1 := by norm_num
  have h3 : 50 ≤ (List.replicate 50 ([] : List Pix)).length := by norm_num
  exact ⟨⟨h1, h2, (C10_glitch_short_frame_partiality [] 1).1 h1 h2⟩,
    ⟨h3, (C10_glitch_short_frame_partiality (List.replicate 50 []) 1).2 h3 {}⟩⟩

/-! ## VFXEngine (src lines 267-347) -/

/-- Parameter dictionary of an effect request; absent keys fall back to the
defaults hard-coded in VFXEngine.render. The source dictionary is untyped;
shake reads the same "intensity" key as an int, modelled by pyInt. -/
structure EffectParams where
  intensity : Option ℚ := none
  radius : Option ℤ := none
  strength : Option ℚ := none
  center : Option (ℤ × ℤ) := none
deriving DecidableEq, Repr

/-- Pending effect request: a kind string plus parameters (add_effect does not
validate the kind; unknown kinds are skipped at render time). -/
structure EffectReq where
  kind : String
  params : EffectParams
deriving DecidableEq, Repr

/-- Random draws available to one effect application. -/
structure FxRand where
  xd : ℤ := 0
  yd : ℤ := 0
  glitch : GlitchRand := {}
deriving DecidableEq, Repr

/-- VFXEngine state: registered particle systems, pending effect requests in
enqueue order, and the previous composited frame for motion blur. -/
structure VFXEngine where
  particle_systems : List ParticleSystem
  active_effects : List EffectReq
  prev_frame : Option Frame
deriving DecidableEq, Repr

/-- VFXEngine.__init__. -/
def VFXEngine.empty : VFXEngine := ⟨[], [], none⟩

/-- Drawing pass of VFXEngine.render: every particle system renders onto the
working frame, in registration order. -/
def drawSystems (systems : List ParticleSystem) (f : Frame) : Frame :=
  systems.foldl (fun fr s => s.renderFrame fr) f

/-- Dispatch of one pending effect inside VFXEngine.render, mirroring the
if/elif chain: a motion_blur request with no previous frame falls through
every branch (identity), and so does an unknown kind. -/
def applyOne (blur : ℤ → Frame → Frame) (prev : Option Frame) (rnd : FxRand)
    (e : EffectReq) (frame : Frame) : Except String Frame :=
  if e.kind = "glow" then
    .ok (apply_glow blur frame (e.params.intensity.getD (1/2))
      (e.params.radius.getD 20))
  else if e.kind = "motion_blur" then
    match prev with
    | some pf => .ok (apply_motion_blur frame pf (e.params.strength.getD (1/2)))
    | none => .ok frame
  else if e.kind = "shake" then
    apply_shake frame (pyInt (e.params.intensity.getD 5)) rnd.xd rnd.yd
  else if e.kind = "glitch" then
    apply_glitch frame (e.params.intensity.getD (1/2)) rnd.glitch
  else if e.kind = "radial_blur" then
    apply_radial_blur blur frame
      (e.params.center.getD
        (((frame.headD []).length : ℤ) / 2, ((frame.length : ℤ)) / 2))
      (e.params.strength.getD (1/2))
  else .ok frame

/-- Effect loop of VFXEngine.render: left fold over the pending requests in
enqueue order, the i-th request consuming the i-th batch of draws. -/
def applyEffects (blur : ℤ → Frame → Frame) (prev : Option Frame)
    (oracle : ℕ → FxRand) : ℕ → List EffectReq → Frame → Except String Frame
  | _, [], f => .ok f
  | i, e :: rest, f =>
    match applyOne blur prev (oracle i) e f with
    | .error err => .error err
    | .ok f1 => applyEffects blur prev oracle (i + 1) rest f1

/-- VFXEngine.render(base_frame): copy the base frame, draw every particle
system onto the copy, fold the pending effects over it (all of them reading
the engine's previous frame as stored before this call), then store the
composited result as the new previous frame and return it. -/
def VFXEngine.render (blur : ℤ → Frame → Frame) (oracle : ℕ → FxRand)
    (eng : VFXEngine) (base : Frame) : Except String (Frame × VFXEngine) :=
  let frame := drawSystems eng.particle_systems base
  match applyEffects blur eng.prev_frame oracle 0 eng.active_effects frame with
  | .error e => .error e
  | .ok final => .ok (final, { eng with prev_frame := some final })

/-- C5: with pending effects [A, B], render applies A to the base-plus-
particles frame and B to the output of A — a left fold in enqueue order,
not the reverse order and not independently blended layers. -/
theorem C5_effect_pipeline_left_fold (blur : ℤ → Frame → Frame)
    (oracle : ℕ → FxRand) (systems : List ParticleSystem) (prev : Option Frame)
    (A B : EffectReq) (base : Frame) :
    VFXEngine.render blur oracle ⟨systems, [A, B], prev⟩ base =
      (match applyOne blur prev (oracle 0) A (drawSystems systems base) with
       | .error e => .error e
       | .ok f1 =>
         match applyOne blur prev (oracle 1) B f1 with
         | .error e => .error e
         | .ok f2 => .ok (f2, ⟨systems, [A, B], some f2⟩)) := by
  cases h0 : applyOne blur prev (oracle 0) A (drawSystems systems base) with
  | error e => simp only [VFXEngine.render, applyEffects, h0]
  | ok f1 =>
    cases h1 : applyOne blur prev (oracle 1) B f1 with
    | error e => simp only [VFXEngine.render, applyEffects, h0, h1]
    | ok f2 => simp only [VFXEngine.render, applyEffects, h0, h1]

/-- C6: a fresh engine (no previous frame) with a pending motion-blur request
renders the base-plus-particles frame unchanged, with no error; the request
is silently treated as the identity. -/
theorem C6_motion_blur_no_prev_is_identity (blur : ℤ → Frame → Frame)
    (oracle : ℕ → FxRand) (systems : List ParticleSystem)
    (params : EffectParams) (base : Frame) :
    VFXEngine.render blur oracle ⟨systems, [⟨"motion_blur", params⟩], none⟩ base =
      .ok (drawSystems systems base,
        ⟨systems, [⟨"motion_blur", params⟩], some (drawSystems systems base)⟩) := by
  rfl

/-! ## Buffer identity of VFXEngine.render (C9)

The pure render above already states what the composited frame contains; to
talk about mutation of the caller's array we model numpy buffer identity
explicitly: a store of numbered frame buffers. base_frame.copy() allocates a
fresh buffer; cv2.circle mutates the copy in place (a write to that buffer);
every effect call returns a fresh buffer that the local name frame rebinds
to. -/

/-- Store of allocated frame buffers. -/
structure FrameStore where
  heap : ℕ → Frame
  next : ℕ

/-- In-place write to an existing buffer (cv2.circle mutation). -/
def writeBuf (st : FrameStore) (i : ℕ) (f : Frame) : FrameStore :=
  ⟨fun j => if j = i then f else st.heap j, st.next⟩

/-- Allocation of a fresh buffer holding f; returns the new store and the
fresh buffer id. -/
def allocBuf (st : FrameStore) (f : Frame) : FrameStore × ℕ :=
  (⟨fun j => if j = st.next then f else st.heap j, st.next + 1⟩, st.next)

/-- VFXEngine.render with explicit buffer identity: copy the base buffer,
mutate the copy with the particle drawing pass, run the effect pipeline into
a fresh result buffer, retain it as prev_frame, and return its id. The
caller's buffer baseId is never written. -/
def VFXEngine.renderImp (blur : ℤ → Frame → Frame) (oracle : ℕ → FxRand)
    (eng : VFXEngine) (st : FrameStore) (baseId : ℕ) :
    Except String (FrameStore × ℕ × VFXEngine) :=
  let a1 := allocBuf st (st.heap baseId)
  let st1 := a1.1
  let fid := a1.2
  let st2 := writeBuf st1 fid (drawSystems eng.particle_systems (st1.heap fid))
  match applyEffects blur eng.prev_frame oracle 0 eng.active_effects
      (st2.heap fid) with
  | .error e => .error e
  | .ok ffinal =>
    let a2 := allocBuf st2 ffinal
    .ok (a2.1, a2.2, { eng with prev_frame := some (a2.1.heap a2.2) })

/-- C9: render never writes the caller's base buffer — on every successful
render the base buffer's contents are unchanged and the returned composited
frame is a different, freshly allocated buffer. -/
theorem C9_render_preserves_base_frame (blur : ℤ → Frame → Frame)
    (oracle : ℕ → FxRand) (eng : VFXEngine) (st : FrameStore) (baseId : ℕ)
    (hvalid : baseId < st.next) :
    match VFXEngine.renderImp blur oracle eng st baseId with
    | .error _ => True
    | .ok (st1, rid, _) => st1.heap baseId = st.heap baseId ∧ rid ≠ baseId := by
  have h1 : baseId ≠ st.next + 1 := by omega
  have h2 : baseId ≠ st.next := by omega
  simp only [VFXEngine.renderImp]
  cases applyEffects blur eng.prev_frame oracle 0 eng.active_effects
      ((writeBuf (allocBuf st (st.heap baseId)).1 (allocBuf st (st.heap baseId)).2
        (drawSystems eng.particle_systems
          ((allocBuf st (st.heap baseId)).1.heap
            (allocBuf st (st.heap baseId)).2))).heap
        (allocBuf st (st.heap baseId)).2) with
  | error e => exact trivial
  | ok ffinal =>
    constructor
    · simp [allocBuf, writeBuf, h1, h2]
    · simp only [allocBuf, writeBuf]
      omega

/-- Witness for C9: a one-buffer store, an empty engine, the identity blur. -/
theorem C9_render_preserves_base_frame_witness :
    (0 : ℕ) < (1 : ℕ) ∧
    (match VFXEngine.renderImp (fun _ f => f) (fun _ => {}) ⟨[], [], none⟩
        ⟨fun _ => [], 1⟩ 0 with
     | .error _ => True
     | .ok (st1, rid, _) => st1.heap 0 = (fun _ => ([] : Frame)) 0 ∧ rid ≠ 0) ∧
    (VFXEngine.renderImp (fun _ f => f) (fun _ => {}) ⟨[], [], none⟩
        ⟨fun _ => [], 1⟩ 0).isOk = true := by
  refine ⟨Nat.zero_lt_one, ?_, rfl⟩
  exact C9_render_preserves_base_frame (fun _ f => f) (fun _ => {})
    ⟨[], [], none⟩ ⟨fun _ => [], 1⟩ 0 Nat.zero_lt_one
